import Mathlib

/-!
Verification of the passmate encrypted vault (src/lib.rs) against its
specification.  The vault's own logic (byte-layout handling, error mapping,
entry-map operations, the open/save control flow) is embedded concretely.
External collaborators used by the vault — the Argon2 password hash, the
AES-256-GCM AEAD, the serde_json codec, the random source and the
filesystem — are modelled as parameters (a `Collab` record and explicit
random draws / file states), with their contracts stated as hypotheses
where a claim depends on them, exactly as §6 of the spec lists them.

Bytes are modelled as `List Nat`.  Rust's `slice::split_at(mid)` panics
when `mid > len`; this is modelled by `splitAtChecked` returning `none`,
and the result type `RResult` has an explicit `panic` outcome.
-/

namespace Passmate

/-- Rust `split_at(n)`: returns the two halves, or `none` when the slice is
shorter than `n` (Rust panics in that case). -/
def splitAtChecked (n : Nat) (l : List Nat) : Option (List Nat × List Nat) :=
  if n ≤ l.length then some (l.take n, l.drop n) else none

/-- The error enum `PassmateError` of src/lib.rs (payloads elided: each Rust
variant carries the underlying library error, which the vault logic never
inspects). `IOErr` stands for the Rust variant named after input/output. -/
inductive PassmateError where
  | Encrypt
  | Decrypt
  | EncryptionKey
  | Json
  | IOErr
deriving DecidableEq, Repr

/-- Outcome of running a piece of Rust code: a value, an error return, or a
panic (e.g. an out-of-bounds `split_at`). -/
inductive RResult (α : Type) where
  | ok : α → RResult α
  | err : PassmateError → RResult α
  | panic : RResult α
deriving DecidableEq, Repr

/-- What reading the file at a path can yield: its bytes, "no such file",
or some other input/output failure. -/
inductive FileRead where
  | contents : List Nat → FileRead
  | notFound : FileRead
  | ioFailure : FileRead

/-- The external collaborators of the vault core (spec §6): password
hashing (Argon2), the AEAD primitive (AES-256-GCM) taking key, nonce and
message, and the map codec (serde_json). -/
structure Collab where
  hashPasswordInto : String → List Nat → Except Unit (List Nat)
  aeadEncrypt : List Nat → List Nat → List Nat → Except Unit (List Nat)
  aeadDecrypt : List Nat → List Nat → List Nat → Except Unit (List Nat)
  serialize : List (String × String) → Except Unit (List Nat)
  deserialize : List Nat → Except Unit (List (String × String))

/-- The entry map is a `HashMap<String, String>`; it is modelled as an
association list with unique keys, whose order stands for the map's
arbitrary internal ordering.  `mapGet` is `HashMap::get`. -/
def mapGet (name : String) : List (String × String) → Option String
  | [] => none
  | (k, v) :: rest => if k = name then some v else mapGet name rest

/-- Rust's `HashMap::insert`: overwrite the value under an existing key, else add
the pair. -/
def mapInsert (name value : String) : List (String × String) → List (String × String)
  | [] => [(name, value)]
  | (k, v) :: rest =>
      if k = name then (name, value) :: rest else (k, v) :: mapInsert name value rest

/-- Rust's `HashMap::remove`: drop the (unique) pair under the key, if present. -/
def mapRemove (name : String) : List (String × String) → List (String × String)
  | [] => []
  | (k, v) :: rest => if k = name then rest else (k, v) :: mapRemove name rest

/-- The `Vault` struct of src/lib.rs. -/
structure Vault where
  path : String
  passphrase : String
  data : List (String × String)
deriving DecidableEq, Repr

/-- Function `make_key` (src/lib.rs:117): Argon2 with default parameters; a failure
of the primitive is mapped to `PassmateError::EncryptionKey`. -/
def make_key (c : Collab) (pwd : String) (salt : List Nat) : Except PassmateError (List Nat) :=
  match c.hashPasswordInto pwd salt with
  | .error _ => .error .EncryptionKey
  | .ok key => .ok key

/-- Function `encrypt` (src/lib.rs:132).  The 12-byte nonce drawn from the random
source inside the Rust function is passed explicitly.  Returns
nonce ‖ ciphertext+tag, or `PassmateError::Encrypt`. -/
def encrypt (c : Collab) (nonce : List Nat) (key : List Nat) (data : List Nat) :
    Except PassmateError (List Nat) :=
  match c.aeadEncrypt key nonce data with
  | .error _ => .error .Encrypt
  | .ok ciphertext => .ok (nonce ++ ciphertext)

/-- Function `decrypt` (src/lib.rs:147): split off the 12-byte nonce (a panic when
fewer than 12 bytes remain) and authenticated-decrypt the rest. -/
def decrypt (c : Collab) (key : List Nat) (encryptedData : List Nat) : RResult (List Nat) :=
  match splitAtChecked 12 encryptedData with
  | none => .panic
  | some (nonce, ciphertext) =>
      match c.aeadDecrypt key nonce ciphertext with
      | .error _ => .err .Decrypt
      | .ok m => .ok m

/-- Method `Vault::open` (src/lib.rs:44) given the outcome of reading the file:
split off the 16-byte salt (a panic when the file is shorter), derive the
key, decrypt, deserialize; a missing file yields an empty vault. -/
def Vault.openFile (c : Collab) (path passphrase : String) (file : FileRead) : RResult Vault :=
  match file with
  | .contents encryptedData =>
      match splitAtChecked 16 encryptedData with
      | none => .panic
      | some (salt, rest) =>
          match make_key c passphrase salt with
          | .error e => .err e
          | .ok key =>
              match decrypt c key rest with
              | .panic => .panic
              | .err e => .err e
              | .ok plain =>
                  match c.deserialize plain with
                  | .error _ => .err .Json
                  | .ok data => .ok ⟨path, passphrase, data⟩
  | .notFound => .ok ⟨path, passphrase, []⟩
  | .ioFailure => .err .IOErr

/-- The filesystem as a map from paths to file contents. -/
def FS : Type := String → Option (List Nat)

/-- Rust's `std::fs::write`: create or fully replace the file at the path. -/
def FS.write (fs : FS) (p : String) (c : List Nat) : FS :=
  fun q => if q = p then some c else fs q

/-- Method `Vault::open` reading from a filesystem state. -/
def Vault.openFS (c : Collab) (path passphrase : String) (fs : FS) : RResult Vault :=
  Vault.openFile c path passphrase
    (match fs path with
     | some bs => FileRead.contents bs
     | none => FileRead.notFound)

/-- Method `Vault::save` (src/lib.rs:102) as a state transformer.  The fresh
16-byte salt and 12-byte nonce drawn from the random source are passed
explicitly; `writeOk` is whether `fs::write` succeeds.  The vault is
threaded through unchanged, mirroring the `&self` receiver; on a write
failure no claim is made about the on-disk state, which a partial write
may have corrupted, so the prior state is returned as a placeholder. -/
def Vault.saveS (c : Collab) (salt nonce : List Nat) (writeOk : Bool) (v : Vault) (fs : FS) :
    Except PassmateError Unit × Vault × FS :=
  match make_key c v.passphrase salt with
  | .error e => (.error e, v, fs)
  | .ok key =>
      match c.serialize v.data with
      | .error _ => (.error .Json, v, fs)
      | .ok data =>
          match encrypt c nonce key data with
          | .error e => (.error e, v, fs)
          | .ok encryptedData =>
              if writeOk then (.ok (), v, FS.write fs v.path (salt ++ encryptedData))
              else (.error .IOErr, v, fs)

/-- Method `Vault::entries` (src/lib.rs:71): collect the keys and sort them.
Rust sorts `String`s by their UTF-8 bytes, which orders exactly as Lean's
codepoint-lexicographic `≤` on `String`. -/
def Vault.entries (v : Vault) : List String :=
  List.insertionSort (fun a b => a ≤ b) (v.data.map Prod.fst)

/-- Method `Vault::get` (src/lib.rs:79). -/
def Vault.get (v : Vault) (name : String) : Option String :=
  mapGet name v.data

/-- Method `Vault::set` (src/lib.rs:84). -/
def Vault.set (v : Vault) (name value : String) : Vault :=
  { v with data := mapInsert name value v.data }

/-- Method `Vault::remove` (src/lib.rs:92). -/
def Vault.remove (v : Vault) (name : String) : Vault :=
  { v with data := mapRemove name v.data }

/-- Soundness half of the AEAD collaborator contract (spec §6): a
ciphertext accepted by authenticated decryption under (key, nonce) is
exactly the one sealing produces for the recovered plaintext. -/
def AeadSound (c : Collab) : Prop :=
  ∀ k n ct m, c.aeadDecrypt k n ct = .ok m → c.aeadEncrypt k n m = .ok ct

/-- Key-binding half of the AEAD collaborator contract: two equal-length
keys cannot seal (under the same nonce) to the same ciphertext. -/
def AeadKeyBinding (c : Collab) : Prop :=
  ∀ k k' n m m' ct, k.length = k'.length →
    c.aeadEncrypt k n m = .ok ct → c.aeadEncrypt k' n m' = .ok ct → k = k'

/-- A concrete executable collaborator used to instantiate hypotheses at
concrete inputs.  Its AEAD echoes key ‖ nonce ‖ message and its decryption
verifies the echo, so it satisfies `AeadSound` and `AeadKeyBinding`; the
password hash and the codec are finite tables. -/
def demoC : Collab where
  hashPasswordInto := fun p _ =>
    if p = "pw" then .ok (List.replicate 32 1)
    else if p = "qw" then .ok (List.replicate 32 2)
    else .error ()
  aeadEncrypt := fun k n m => .ok (k ++ n ++ m)
  aeadDecrypt := fun k n ct =>
    if k ++ n = ct.take (k.length + n.length) then .ok (ct.drop (k.length + n.length))
    else .error ()
  serialize := fun m =>
    if m = [("mypass", "test")] then .ok [42]
    else if m = [] then .ok [123, 125]
    else .error ()
  deserialize := fun bs =>
    if bs = [42] then .ok [("mypass", "test")]
    else if bs = [123, 125] then .ok []
    else .error ()

/-- A second concrete collaborator whose AEAD appends a 16-byte tag, so
that its ciphertexts have length plaintext + 16 as AES-GCM's do. -/
def demoLen : Collab where
  hashPasswordInto := demoC.hashPasswordInto
  aeadEncrypt := fun _ _ m => .ok (m ++ List.replicate 16 0)
  aeadDecrypt := fun _ _ _ => .error ()
  serialize := demoC.serialize
  deserialize := demoC.deserialize

lemma demoC_sound : AeadSound demoC := by
  intro k n ct m h
  simp only [demoC, AeadSound] at h ⊢
  by_cases heq : k ++ n = ct.take (k.length + n.length)
  · rw [if_pos heq] at h
    cases h
    have hlen : (k ++ n).length = k.length + n.length := by simp
    calc (Except.ok (k ++ n ++ ct.drop (k.length + n.length)) : Except Unit (List Nat))
        = .ok (ct.take (k.length + n.length) ++ ct.drop (k.length + n.length)) := by
          rw [heq]
      _ = .ok ct := by rw [List.take_append_drop]
  · rw [if_neg heq] at h
    exact absurd h (by simp)

lemma demoC_keyBinding : AeadKeyBinding demoC := by
  intro k k' n m m' ct hlen h1 h2
  simp only [demoC, Except.ok.injEq] at h1 h2
  have h : k ++ (n ++ m) = k' ++ (n ++ m') := by
    rw [← List.append_assoc, ← List.append_assoc, h1, h2]
  exact (List.append_inj h hlen).1

/-- Splitting a concatenation at the length of its first part recovers the
two parts (and does not panic). -/
lemma splitAtChecked_append (n : Nat) (l r : List Nat) (h : l.length = n) :
    splitAtChecked n (l ++ r) = some (l, r) := by
  subst h
  simp [splitAtChecked, List.take_left, List.drop_left, Nat.le_add_right]

/-- Evaluation of a successful save: the derived key, serialized bytes and
ciphertext determine the written file salt ‖ nonce ‖ ciphertext+tag. -/
lemma saveS_eq (c : Collab) (salt nonce : List Nat) (v : Vault) (fs : FS)
    (key sb ct : List Nat)
    (hkey : make_key c v.passphrase salt = .ok key)
    (hser : c.serialize v.data = .ok sb)
    (henc : c.aeadEncrypt key nonce sb = .ok ct) :
    Vault.saveS c salt nonce true v fs =
      (.ok (), v, FS.write fs v.path (salt ++ (nonce ++ ct))) := by
  simp [Vault.saveS, hkey, hser, encrypt, henc]

/-- Evaluation of a successful open on a well-formed file. -/
lemma openFile_eq (c : Collab) (path passphrase : String)
    (salt nonce key sb ct : List Nat) (M : List (String × String))
    (hsalt : salt.length = 16) (hnonce : nonce.length = 12)
    (hkey : make_key c passphrase salt = .ok key)
    (hdec : c.aeadDecrypt key nonce ct = .ok sb)
    (hdeser : c.deserialize sb = .ok M) :
    Vault.openFile c path passphrase (.contents (salt ++ (nonce ++ ct))) =
      .ok ⟨path, passphrase, M⟩ := by
  simp [Vault.openFile, splitAtChecked_append 16 salt (nonce ++ ct) hsalt, hkey,
    decrypt, splitAtChecked_append 12 nonce ct hnonce, hdec, hdeser]

/-- Evaluation of an open whose authenticated decryption rejects. -/
lemma openFile_decrypt_err (c : Collab) (path passphrase : String)
    (salt nonce key ctx : List Nat)
    (hsalt : salt.length = 16) (hnonce : nonce.length = 12)
    (hkey : make_key c passphrase salt = .ok key)
    (hd : c.aeadDecrypt key nonce ctx = .error ()) :
    Vault.openFile c path passphrase (.contents (salt ++ (nonce ++ ctx))) = .err .Decrypt := by
  simp [Vault.openFile, splitAtChecked_append 16 salt (nonce ++ ctx) hsalt, hkey,
    decrypt, splitAtChecked_append 12 nonce ctx hnonce, hd]

/-- Saving and then reopening at the same path with the same passphrase
recovers the map, given the collaborator round-trips at these values. -/
lemma saveS_then_openFS (c : Collab) (path P : String) (M : List (String × String))
    (salt nonce key sb ct : List Nat) (fs : FS)
    (hsalt : salt.length = 16) (hnonce : nonce.length = 12)
    (hkey : make_key c P salt = .ok key)
    (hser : c.serialize M = .ok sb)
    (henc : c.aeadEncrypt key nonce sb = .ok ct)
    (hdec : c.aeadDecrypt key nonce ct = .ok sb)
    (hdeser : c.deserialize sb = .ok M) :
    (Vault.saveS c salt nonce true ⟨path, P, M⟩ fs).1 = .ok () ∧
    Vault.openFS c path P (Vault.saveS c salt nonce true ⟨path, P, M⟩ fs).2.2 =
      .ok ⟨path, P, M⟩ := by
  rw [saveS_eq c salt nonce ⟨path, P, M⟩ fs key sb ct hkey hser henc]
  refine ⟨rfl, ?_⟩
  show Vault.openFS c path P (FS.write fs path (salt ++ (nonce ++ ct))) = _
  have hw : Vault.openFS c path P (FS.write fs path (salt ++ (nonce ++ ct))) =
      Vault.openFile c path P (.contents (salt ++ (nonce ++ ct))) := by
    simp [Vault.openFS, FS.write]
  rw [hw]
  exact openFile_eq c path P salt nonce key sb ct M hsalt hnonce hkey hdec hdeser

/-- Looking up the key just inserted yields the value just inserted. -/
lemma mapGet_mapInsert_self (n val : String) (l : List (String × String)) :
    mapGet n (mapInsert n val l) = some val := by
  induction l with
  | nil => simp [mapInsert, mapGet]
  | cons kv rest ih =>
      obtain ⟨k, v⟩ := kv
      by_cases hk : k = n
      · simp [mapInsert, hk, mapGet]
      · simp [mapInsert, hk, mapGet, ih]

/-- Inserting under one key leaves lookups under any other key unchanged. -/
lemma mapGet_mapInsert_ne (n n' val : String) (l : List (String × String)) (h : n' ≠ n) :
    mapGet n' (mapInsert n val l) = mapGet n' l := by
  induction l with
  | nil => simp [mapInsert, mapGet, Ne.symm h]
  | cons kv rest ih =>
      obtain ⟨k, v⟩ := kv
      by_cases hk : k = n
      · subst hk
        simp [mapInsert, mapGet, Ne.symm h]
      · simp [mapInsert, hk, mapGet, ih]

/-- Inserting twice under the same key keeps only the second value. -/
lemma mapInsert_mapInsert (n val val2 : String) (l : List (String × String)) :
    mapInsert n val2 (mapInsert n val l) = mapInsert n val2 l := by
  induction l with
  | nil => simp [mapInsert]
  | cons kv rest ih =>
      obtain ⟨k, v⟩ := kv
      by_cases hk : k = n
      · simp [mapInsert, hk]
      · simp [mapInsert, hk, ih]

/-- C2: the claim fails on the code — `Vault::open` on an existing file
shorter than the 16-byte salt does not return a typed error: the
`split_at(16)` at src/lib.rs:50 panics (index out of bounds), for any
collaborators, any path and any passphrase. -/
theorem open_panics_on_short_file (c : Collab) (path passphrase : String) (bs : List Nat)
    (h : bs.length < 16) :
    Vault.openFile c path passphrase (.contents bs) = .panic := by
  simp [Vault.openFile, splitAtChecked, Nat.not_le.mpr h]

/-- C2 witness: an existing but empty (0-byte) vault file makes open panic. -/
theorem open_panics_on_short_file_witness :
    Vault.openFile demoC "p" "pw" (.contents []) = .panic :=
  open_panics_on_short_file demoC "p" "pw" [] (by decide)

/-- C5: a successful save writes to the vault's path, replacing whatever
the filesystem held there before, exactly salt ‖ nonce ‖ ciphertext+tag,
the AEAD tag making the ciphertext 16 bytes longer than the serialized
plaintext. -/
theorem save_writes_salt_nonce_ciphertext (c : Collab) (salt nonce : List Nat) (v : Vault)
    (fs : FS) (key sb ct : List Nat)
    (hsalt : salt.length = 16) (hnonce : nonce.length = 12)
    (hkey : make_key c v.passphrase salt = .ok key)
    (hser : c.serialize v.data = .ok sb)
    (henc : c.aeadEncrypt key nonce sb = .ok ct)
    (htag : ct.length = sb.length + 16) :
    (Vault.saveS c salt nonce true v fs).1 = .ok () ∧
    (Vault.saveS c salt nonce true v fs).2.2 v.path = some (salt ++ (nonce ++ ct)) ∧
    (salt ++ (nonce ++ ct)).take 16 = salt ∧
    ((salt ++ (nonce ++ ct)).drop 16).take 12 = nonce ∧
    ((salt ++ (nonce ++ ct)).drop 16).drop 12 = ct ∧
    (ct.drop sb.length).length = 16 := by
  rw [saveS_eq c salt nonce v fs key sb ct hkey hser henc]
  refine ⟨rfl, by simp [FS.write], ?_, ?_, ?_, ?_⟩
  · exact List.take_left' hsalt
  · rw [List.drop_left' hsalt]
    exact List.take_left' hnonce
  · rw [List.drop_left' hsalt]
    exact List.drop_left' hnonce
  · simp [List.length_drop, htag]

/-- C5 witness: saving a one-entry vault over an arbitrary prior file
writes exactly the 16-byte salt, the 12-byte nonce and the tagged
ciphertext. -/
theorem save_writes_salt_nonce_ciphertext_witness :
    (Vault.saveS demoLen (List.replicate 16 0) (List.replicate 12 0) true
        ⟨"p", "pw", [("mypass", "test")]⟩ (fun _ => some [7])).1 = .ok () ∧
    (Vault.saveS demoLen (List.replicate 16 0) (List.replicate 12 0) true
        ⟨"p", "pw", [("mypass", "test")]⟩ (fun _ => some [7])).2.2 "p" =
      some (List.replicate 16 0 ++ (List.replicate 12 0 ++ ([42] ++ List.replicate 16 0))) ∧
    (List.replicate 16 0 ++
        (List.replicate 12 0 ++ ([42] ++ List.replicate 16 0))).take 16 = List.replicate 16 0 ∧
    ((List.replicate 16 0 ++
        (List.replicate 12 0 ++ ([42] ++ List.replicate 16 0))).drop 16).take 12 =
      List.replicate 12 0 ∧
    ((List.replicate 16 0 ++
        (List.replicate 12 0 ++ ([42] ++ List.replicate 16 0))).drop 16).drop 12 =
      [42] ++ List.replicate 16 0 ∧
    (([42] ++ List.replicate 16 0).drop ([42] : List Nat).length).length = 16 :=
  save_writes_salt_nonce_ciphertext demoLen (List.replicate 16 0) (List.replicate 12 0)
    ⟨"p", "pw", [("mypass", "test")]⟩ (fun _ => some [7])
    (List.replicate 32 1) [42] ([42] ++ List.replicate 16 0)
    (by decide) (by decide) rfl rfl rfl (by decide)

/-- C6: `entries` returns exactly the names present in the entry map,
sorted lexicographically; any vault whose map holds the same names in any
other internal order yields the same sequence, so the result is
deterministic and independent of insertion order. -/
theorem entries_sorted_complete (v w : Vault)
    (h : List.Perm (w.data.map Prod.fst) (v.data.map Prod.fst)) :
    List.Sorted (fun a b : String => a ≤ b) (Vault.entries v) ∧
    List.Perm (Vault.entries v) (v.data.map Prod.fst) ∧
    Vault.entries w = Vault.entries v := by
  have hs : ∀ u : Vault, List.Sorted (fun a b : String => a ≤ b) (Vault.entries u) :=
    fun u => List.sorted_insertionSort _ _
  refine ⟨hs v, List.perm_insertionSort _ _, ?_⟩
  exact List.eq_of_perm_of_sorted
    ((List.perm_insertionSort _ _).trans (h.trans (List.perm_insertionSort _ _).symm))
    (hs w) (hs v)

/-- C6 witness: inserting "pass2" before "pass1" or after it, `entries`
is sorted, complete, and identical for both insertion orders. -/
theorem entries_sorted_complete_witness :
    List.Sorted (fun a b : String => a ≤ b)
      (Vault.entries ⟨"p", "pw", [("pass1", "a"), ("pass2", "b")]⟩) ∧
    List.Perm (Vault.entries ⟨"p", "pw", [("pass1", "a"), ("pass2", "b")]⟩)
      ([("pass1", "a"), ("pass2", "b")].map Prod.fst) ∧
    Vault.entries ⟨"p", "pw", [("pass2", "b"), ("pass1", "a")]⟩ =
      Vault.entries ⟨"p", "pw", [("pass1", "a"), ("pass2", "b")]⟩ :=
  entries_sorted_complete ⟨"p", "pw", [("pass1", "a"), ("pass2", "b")]⟩
    ⟨"p", "pw", [("pass2", "b"), ("pass1", "a")]⟩ (by decide)

/-- C7: `set` inserts or overwrites in the in-memory map only — any name
and value are accepted, including empty strings, no other entry changes,
the path and passphrase are untouched, and setting the same name twice
leaves only the second value. -/
theorem set_insert_overwrite (v : Vault) (n n' val val2 : String) (h : n' ≠ n) :
    ((v.set n val).get n = some val) ∧
    ((v.set n val).get n' = v.get n') ∧
    (((v.set n val).set n val2).get n = some val2) ∧
    (((v.set n val).set n val2).data = (v.set n val2).data) ∧
    ((v.set n val).path = v.path) ∧ ((v.set n val).passphrase = v.passphrase) := by
  refine ⟨?_, ?_, ?_, ?_, rfl, rfl⟩
  · exact mapGet_mapInsert_self n val v.data
  · exact mapGet_mapInsert_ne n n' val v.data h
  · exact mapGet_mapInsert_self n val2 (mapInsert n val v.data)
  · exact mapInsert_mapInsert n val val2 v.data

/-- C7 witness: with the empty string as a name, over a one-entry vault. -/
theorem set_insert_overwrite_witness :
    (((⟨"p", "pw", [("a", "1")]⟩ : Vault).set "" "x").get "" = some "x") ∧
    (((⟨"p", "pw", [("a", "1")]⟩ : Vault).set "" "x").get "a" =
      (⟨"p", "pw", [("a", "1")]⟩ : Vault).get "a") ∧
    ((((⟨"p", "pw", [("a", "1")]⟩ : Vault).set "" "x").set "" "y").get "" = some "y") ∧
    ((((⟨"p", "pw", [("a", "1")]⟩ : Vault).set "" "x").set "" "y").data =
      ((⟨"p", "pw", [("a", "1")]⟩ : Vault).set "" "y").data) ∧
    (((⟨"p", "pw", [("a", "1")]⟩ : Vault).set "" "x").path = "p") ∧
    (((⟨"p", "pw", [("a", "1")]⟩ : Vault).set "" "x").passphrase = "pw") :=
  set_insert_overwrite ⟨"p", "pw", [("a", "1")]⟩ "" "a" "x" "y" (by decide)

/-- C8: `save` borrows the vault immutably, so whatever its outcome —
success or any of the key-derivation, serialization, encryption or write
errors — the in-memory path, passphrase and entry map are unchanged and
the caller may retry. -/
theorem save_leaves_vault_unchanged (c : Collab) (salt nonce : List Nat) (writeOk : Bool)
    (v : Vault) (fs : FS) :
    (Vault.saveS c salt nonce writeOk v fs).2.1 = v := by
  unfold Vault.saveS
  repeat' split
  all_goals rfl

/-- C10: a successful save produces a file of exactly 16 + 12 + |ser| + 16
bytes where |ser| is the serialized length of the map, hence at least 46
bytes whenever the serialization takes at least its 2-byte minimum (the
braces serde_json writes even for the empty map); the file length reveals
|ser|. -/
theorem save_file_length (c : Collab) (salt nonce : List Nat) (v : Vault) (fs : FS)
    (key sb ct : List Nat)
    (hsalt : salt.length = 16) (hnonce : nonce.length = 12)
    (hkey : make_key c v.passphrase salt = .ok key)
    (hser : c.serialize v.data = .ok sb)
    (henc : c.aeadEncrypt key nonce sb = .ok ct)
    (htag : ct.length = sb.length + 16) :
    (Vault.saveS c salt nonce true v fs).2.2 v.path = some (salt ++ (nonce ++ ct)) ∧
    (salt ++ (nonce ++ ct)).length = 16 + 12 + sb.length + 16 ∧
    (2 ≤ sb.length → 46 ≤ (salt ++ (nonce ++ ct)).length) := by
  refine ⟨?_, ?_, ?_⟩
  · rw [saveS_eq c salt nonce v fs key sb ct hkey hser henc]
    simp [FS.write]
  · simp [List.length_append, hsalt, hnonce, htag]
    omega
  · intro hsb
    simp [List.length_append, hsalt, hnonce, htag]
    omega

/-- C10 witness: saving the empty map yields a file of exactly 46 bytes. -/
theorem save_file_length_witness :
    (Vault.saveS demoLen (List.replicate 16 0) (List.replicate 12 0) true
        ⟨"p", "pw", []⟩ (fun _ => none)).2.2 "p" =
      some (List.replicate 16 0 ++ (List.replicate 12 0 ++ ([123, 125] ++ List.replicate 16 0))) ∧
    (List.replicate 16 0 ++ (List.replicate 12 0 ++ ([123, 125] ++ List.replicate 16 0))).length =
      16 + 12 + 2 + 16 ∧
    (2 ≤ ([123, 125] : List Nat).length →
      46 ≤ (List.replicate 16 0 ++
        (List.replicate 12 0 ++ ([123, 125] ++ List.replicate 16 0))).length) :=
  save_file_length demoLen (List.replicate 16 0) (List.replicate 12 0)
    ⟨"p", "pw", []⟩ (fun _ => none) (List.replicate 32 1) [123, 125]
    ([123, 125] ++ List.replicate 16 0)
    (by decide) (by decide) rfl rfl rfl (by decide)

/-- C1: save/open round-trip — for every entry map M, passphrase P and
path, saving and then opening that path with the same P succeeds and
yields a vault whose entry map is exactly M, given the collaborator
contracts (AEAD round-trip, codec round-trip) at the values involved; key
derivation reproduces the key because it is the same function of (P, salt). -/
theorem save_open_roundtrip (c : Collab) (path P : String) (M : List (String × String))
    (salt nonce key sb ct : List Nat) (fs : FS)
    (hsalt : salt.length = 16) (hnonce : nonce.length = 12)
    (hkey : make_key c P salt = .ok key)
    (hser : c.serialize M = .ok sb)
    (henc : c.aeadEncrypt key nonce sb = .ok ct)
    (hdec : c.aeadDecrypt key nonce ct = .ok sb)
    (hdeser : c.deserialize sb = .ok M) :
    (Vault.saveS c salt nonce true ⟨path, P, M⟩ fs).1 = .ok () ∧
    Vault.openFS c path P (Vault.saveS c salt nonce true ⟨path, P, M⟩ fs).2.2 =
      .ok ⟨path, P, M⟩ :=
  saveS_then_openFS c path P M salt nonce key sb ct fs hsalt hnonce hkey hser henc hdec hdeser

/-- C1 witness: a one-entry map round-trips through save and open at
concrete salt, nonce and collaborators. -/
theorem save_open_roundtrip_witness :
    (Vault.saveS demoC (List.replicate 16 0) (List.replicate 12 0) true
        ⟨"p", "pw", [("mypass", "test")]⟩ (fun _ => none)).1 = .ok () ∧
    Vault.openFS demoC "p" "pw"
        (Vault.saveS demoC (List.replicate 16 0) (List.replicate 12 0) true
          ⟨"p", "pw", [("mypass", "test")]⟩ (fun _ => none)).2.2 =
      .ok ⟨"p", "pw", [("mypass", "test")]⟩ :=
  save_open_roundtrip demoC "p" "pw" [("mypass", "test")]
    (List.replicate 16 0) (List.replicate 12 0) (List.replicate 32 1) [42]
    (List.replicate 32 1 ++ List.replicate 12 0 ++ [42]) (fun _ => none)
    (by decide) (by decide) rfl rfl rfl rfl rfl

/-- C3: with the AEAD collaborator contract — soundness (an accepted
ciphertext is the genuine sealing of the recovered plaintext) and key
binding (equal-length keys sealing to the same ciphertext are equal) —
opening a saved file with a passphrase whose derived key differs fails
with the decryption error, and opening a file whose ciphertext region was
changed so that authentication rejects it (the AES-GCM guarantee for any
single-byte change) also fails with the decryption error; in neither case
is any plaintext returned. -/
theorem open_rejects_wrong_passphrase_and_tamper (c : Collab) (path P P' : String)
    (salt nonce key key' sb ct ct' : List Nat)
    (hsound : AeadSound c) (hbind : AeadKeyBinding c)
    (hsalt : salt.length = 16) (hnonce : nonce.length = 12)
    (hkey : make_key c P salt = .ok key)
    (henc : c.aeadEncrypt key nonce sb = .ok ct)
    (hkey' : make_key c P' salt = .ok key')
    (hklen : key.length = key'.length)
    (hne : key' ≠ key)
    (htamper : c.aeadDecrypt key nonce ct' = .error ()) :
    Vault.openFile c path P' (.contents (salt ++ (nonce ++ ct))) = .err .Decrypt ∧
    Vault.openFile c path P (.contents (salt ++ (nonce ++ ct'))) = .err .Decrypt := by
  have hdec' : c.aeadDecrypt key' nonce ct = .error () := by
    cases hd : c.aeadDecrypt key' nonce ct with
    | ok m =>
        have hkk : key = key' := hbind key key' nonce sb m ct hklen henc (hsound _ _ _ _ hd)
        exact absurd hkk.symm hne
    | error u => cases u; rfl
  exact ⟨openFile_decrypt_err c path P' salt nonce key' ct hsalt hnonce hkey' hdec',
    openFile_decrypt_err c path P salt nonce key ct' hsalt hnonce hkey htamper⟩

/-- C3 witness: the passphrases "pw" and "qw" derive different keys under
the concrete collaborator, and a saved file is rejected when reopened with
"qw", as is the same file with its first ciphertext byte changed. -/
theorem open_rejects_wrong_passphrase_and_tamper_witness :
    Vault.openFile demoC "p" "qw"
        (.contents (List.replicate 16 0 ++
          (List.replicate 12 0 ++ (List.replicate 32 1 ++ List.replicate 12 0 ++ [42])))) =
      .err .Decrypt ∧
    Vault.openFile demoC "p" "pw"
        (.contents (List.replicate 16 0 ++
          (List.replicate 12 0 ++ (9 :: List.replicate 31 1 ++ List.replicate 12 0 ++ [42])))) =
      .err .Decrypt :=
  open_rejects_wrong_passphrase_and_tamper demoC "p" "pw" "qw"
    (List.replicate 16 0) (List.replicate 12 0) (List.replicate 32 1) (List.replicate 32 2)
    [42] (List.replicate 32 1 ++ List.replicate 12 0 ++ [42])
    (9 :: List.replicate 31 1 ++ List.replicate 12 0 ++ [42])
    demoC_sound demoC_keyBinding (by decide) (by decide) rfl rfl rfl (by decide) (by decide) rfl

/-- C4: opening a path at which no file exists succeeds — it is not an
error — and yields a vault with the empty entry map; saving that vault and
reopening the path yields the same empty map, given the collaborator
round-trips at the empty map. -/
theorem open_missing_gives_empty (c : Collab) (path P : String) (fs : FS)
    (salt nonce key sb ct : List Nat)
    (hfs : fs path = none)
    (hsalt : salt.length = 16) (hnonce : nonce.length = 12)
    (hkey : make_key c P salt = .ok key)
    (hser : c.serialize [] = .ok sb)
    (henc : c.aeadEncrypt key nonce sb = .ok ct)
    (hdec : c.aeadDecrypt key nonce ct = .ok sb)
    (hdeser : c.deserialize sb = .ok []) :
    Vault.openFS c path P fs = .ok ⟨path, P, []⟩ ∧
    (Vault.saveS c salt nonce true ⟨path, P, []⟩ fs).1 = .ok () ∧
    Vault.openFS c path P (Vault.saveS c salt nonce true ⟨path, P, []⟩ fs).2.2 =
      .ok ⟨path, P, []⟩ := by
  have h1 : Vault.openFS c path P fs = .ok ⟨path, P, []⟩ := by
    simp [Vault.openFS, hfs, Vault.openFile]
  have h2 := saveS_then_openFS c path P [] salt nonce key sb ct fs hsalt hnonce hkey hser
    henc hdec hdeser
  exact ⟨h1, h2.1, h2.2⟩

/-- C4 witness: an empty filesystem, then save and reopen of the empty
vault at concrete collaborators. -/
theorem open_missing_gives_empty_witness :
    Vault.openFS demoC "p" "pw" (fun _ => none) = .ok ⟨"p", "pw", []⟩ ∧
    (Vault.saveS demoC (List.replicate 16 0) (List.replicate 12 0) true
        ⟨"p", "pw", []⟩ (fun _ => none)).1 = .ok () ∧
    Vault.openFS demoC "p" "pw"
        (Vault.saveS demoC (List.replicate 16 0) (List.replicate 12 0) true
          ⟨"p", "pw", []⟩ (fun _ => none)).2.2 =
      .ok ⟨"p", "pw", []⟩ :=
  open_missing_gives_empty demoC "p" "pw" (fun _ => none)
    (List.replicate 16 0) (List.replicate 12 0) (List.replicate 32 1) [123, 125]
    (List.replicate 32 1 ++ List.replicate 12 0 ++ [123, 125])
    rfl (by decide) (by decide) rfl rfl rfl rfl rfl

/-- Two 16-byte-salt, 12-byte-nonce files differing in salt or in nonce
are different byte strings. -/
lemma append_sn_ne (s1 n1 r1 s2 n2 r2 : List Nat)
    (hs1 : s1.length = 16) (hs2 : s2.length = 16)
    (hn1 : n1.length = 12) (hn2 : n2.length = 12)
    (h : s1 ≠ s2 ∨ n1 ≠ n2) :
    s1 ++ (n1 ++ r1) ≠ s2 ++ (n2 ++ r2) := by
  intro he
  have hsal : s1 = s2 := by
    have h16 := congrArg (List.take 16) he
    rwa [List.take_left' hs1, List.take_left' hs2] at h16
  have hrest : n1 ++ r1 = n2 ++ r2 := by
    have hd := congrArg (List.drop 16) he
    rwa [List.drop_left' hs1, List.drop_left' hs2] at hd
  have hno : n1 = n2 := by
    have h12 := congrArg (List.take 12) hrest
    rwa [List.take_left' hn1, List.take_left' hn2] at h12
  rcases h with h | h
  · exact h hsal
  · exact h hno

/-- C9: two saves of the same map under the same passphrase, each with its
own freshly drawn salt and nonce, write different files whenever the draws
differ in salt or in nonce (the salt is the first 16 bytes and the nonce
the next 12), while the vault's own `decrypt` recovers the same serialized
plaintext from both files' nonce‖ciphertext regions. -/
theorem save_twice_differs (c : Collab) (v : Vault) (fs1 fs2 : FS)
    (s1 n1 s2 n2 key1 key2 sb ct1 ct2 : List Nat)
    (hs1 : s1.length = 16) (hs2 : s2.length = 16)
    (hn1 : n1.length = 12) (hn2 : n2.length = 12)
    (hfresh : s1 ≠ s2 ∨ n1 ≠ n2)
    (hkey1 : make_key c v.passphrase s1 = .ok key1)
    (hkey2 : make_key c v.passphrase s2 = .ok key2)
    (hser : c.serialize v.data = .ok sb)
    (henc1 : c.aeadEncrypt key1 n1 sb = .ok ct1)
    (henc2 : c.aeadEncrypt key2 n2 sb = .ok ct2)
    (hdec1 : c.aeadDecrypt key1 n1 ct1 = .ok sb)
    (hdec2 : c.aeadDecrypt key2 n2 ct2 = .ok sb) :
    (Vault.saveS c s1 n1 true v fs1).2.2 v.path = some (s1 ++ (n1 ++ ct1)) ∧
    (Vault.saveS c s2 n2 true v fs2).2.2 v.path = some (s2 ++ (n2 ++ ct2)) ∧
    s1 ++ (n1 ++ ct1) ≠ s2 ++ (n2 ++ ct2) ∧
    decrypt c key1 (n1 ++ ct1) = .ok sb ∧
    decrypt c key2 (n2 ++ ct2) = .ok sb := by
  refine ⟨?_, ?_, append_sn_ne s1 n1 ct1 s2 n2 ct2 hs1 hs2 hn1 hn2 hfresh, ?_, ?_⟩
  · rw [saveS_eq c s1 n1 v fs1 key1 sb ct1 hkey1 hser henc1]
    simp [FS.write]
  · rw [saveS_eq c s2 n2 v fs2 key2 sb ct2 hkey2 hser henc2]
    simp [FS.write]
  · simp [decrypt, splitAtChecked_append 12 n1 ct1 hn1, hdec1]
  · simp [decrypt, splitAtChecked_append 12 n2 ct2 hn2, hdec2]

/-- C9 witness: two saves of the same one-entry vault with distinct salts
(and equal nonces) write different files that both decrypt to the same
serialized plaintext. -/
theorem save_twice_differs_witness :
    (Vault.saveS demoC (List.replicate 16 0) (List.replicate 12 0) true
        ⟨"p", "pw", [("mypass", "test")]⟩ (fun _ => none)).2.2 "p" =
      some (List.replicate 16 0 ++
        (List.replicate 12 0 ++ (List.replicate 32 1 ++ List.replicate 12 0 ++ [42]))) ∧
    (Vault.saveS demoC (List.replicate 16 3) (List.replicate 12 0) true
        ⟨"p", "pw", [("mypass", "test")]⟩ (fun _ => none)).2.2 "p" =
      some (List.replicate 16 3 ++
        (List.replicate 12 0 ++ (List.replicate 32 1 ++ List.replicate 12 0 ++ [42]))) ∧
    List.replicate 16 0 ++
        (List.replicate 12 0 ++ (List.replicate 32 1 ++ List.replicate 12 0 ++ [42])) ≠
      List.replicate 16 3 ++
        (List.replicate 12 0 ++ (List.replicate 32 1 ++ List.replicate 12 0 ++ [42])) ∧
    decrypt demoC (List.replicate 32 1)
        (List.replicate 12 0 ++ (List.replicate 32 1 ++ List.replicate 12 0 ++ [42])) =
      .ok [42] ∧
    decrypt demoC (List.replicate 32 1)
        (List.replicate 12 0 ++ (List.replicate 32 1 ++ List.replicate 12 0 ++ [42])) =
      .ok [42] :=
  save_twice_differs demoC ⟨"p", "pw", [("mypass", "test")]⟩ (fun _ => none) (fun _ => none)
    (List.replicate 16 0) (List.replicate 12 0) (List.replicate 16 3) (List.replicate 12 0)
    (List.replicate 32 1) (List.replicate 32 1) [42]
    (List.replicate 32 1 ++ List.replicate 12 0 ++ [42])
    (List.replicate 32 1 ++ List.replicate 12 0 ++ [42])
    (by decide) (by decide) (by decide) (by decide) (Or.inl (by decide))
    rfl rfl rfl rfl rfl rfl rfl

end Passmate
